import Mathlib

/-!
Verification development for the TeX-Bot-Py-V2 repository.

The Python sources (`utils.py`, `cogs/_utils.py`) are shallowly embedded:
Discord guild data (roles, text channels) becomes plain structures, the
`TeXBot` object's cached attributes become an explicit state record, the
property accessors become functions from that state, exceptions become
`Except`, and awaited side effects (`close_func`, `bot.close()`) become an
explicit effect list.  Python machine floats are modelled as exact
rationals; Python strings are modelled as Lean strings or `List Char`.
-/

/-- A Discord role, as far as the embedded code inspects it: an id and a
name (`discord.Role` also carries a mention string derived from the id). -/
structure Role where
  id : Nat
  name : String
deriving DecidableEq, Repr

/-- A Discord text channel: an id and a name. -/
structure TextChannel where
  id : Nat
  name : String
deriving DecidableEq, Repr

/-- A Discord guild as the embedded code sees it: an id, its roles, its
text channels, and the optional id of the configured rules channel
(pycord's `Guild.rules_channel` property looks that id up in the guild's
channel map). -/
structure Guild where
  id : Nat
  roles : List Role
  text_channels : List TextChannel
  rules_channel_id : Option Nat
deriving DecidableEq, Repr

/-- `discord.utils.get(roles, id=i)`. -/
def getRoleById (rs : List Role) (i : Nat) : Option Role :=
  rs.find? (fun r => r.id == i)

/-- `discord.utils.get(roles, name=n)`. -/
def getRoleByName (rs : List Role) (n : String) : Option Role :=
  rs.find? (fun r => r.name == n)

/-- `discord.utils.get(text_channels, id=i)`. -/
def getChannelById (cs : List TextChannel) (i : Nat) : Option TextChannel :=
  cs.find? (fun c => c.id == i)

/-- `discord.utils.get(text_channels, name=n)`. -/
def getChannelByName (cs : List TextChannel) (n : String) : Option TextChannel :=
  cs.find? (fun c => c.name == n)

/-- `discord.utils.get(guilds, id=i)`. -/
def getGuildById (gs : List Guild) (i : Nat) : Option Guild :=
  gs.find? (fun g => g.id == i)

/-- pycord's `Guild.rules_channel`: resolve the stored rules-channel id
against the guild's current text channels (None when unset or gone). -/
def Guild.rules_channel (g : Guild) : Option TextChannel :=
  match g.rules_channel_id with
  | none => none
  | some rid => getChannelById g.text_channels rid

/-- The `GuildDoesNotExist` exception (defined in the repository's
`exceptions.py`, outside `src/`); the embedded code only constructs it
with a `guild_id`. -/
structure GuildDoesNotExist where
  guild_id : Nat
deriving DecidableEq, Repr

/-- The mutable state of a `TeXBot` object: the connected guilds held by
the `discord.Bot` superclass, plus the eight cached attributes set by
`TeXBot.__init__` (`_css_guild`, `_committee_role`, `_guest_role`,
`_member_role`, `_archivist_role`, `_roles_channel`, `_general_channel`,
`_welcome_channel`). -/
structure TeXBot where
  guilds : List Guild
  css_guild_cache : Option Guild
  committee_role_cache : Option Role
  guest_role_cache : Option Role
  member_role_cache : Option Role
  archivist_role_cache : Option Role
  roles_channel_cache : Option TextChannel
  general_channel_cache : Option TextChannel
  welcome_channel_cache : Option TextChannel
deriving DecidableEq, Repr

/-- `TeXBot.__init__`: every cache slot starts as `None`; the superclass
starts with no connected guilds. -/
def TeXBot.initState : TeXBot :=
  { guilds := []
    css_guild_cache := none
    committee_role_cache := none
    guest_role_cache := none
    member_role_cache := none
    archivist_role_cache := none
    roles_channel_cache := none
    general_channel_cache := none
    welcome_channel_cache := none }

/-- The `css_guild` property (`utils.py` lines 145-150): raise
`GuildDoesNotExist` when the cached guild is `None` or no connected guild
has id `settings["DISCORD_GUILD_ID"]`; otherwise return the cached guild.
`sgid` is `settings["DISCORD_GUILD_ID"]`. -/
def TeXBot.css_guild (bot : TeXBot) (sgid : Nat) : Except GuildDoesNotExist Guild :=
  match bot.css_guild_cache, getGuildById bot.guilds sgid with
  | some g, some _ => Except.ok g
  | _, _ => Except.error { guild_id := sgid }

/-- The guard `not self._x or not discord.utils.get(guild.roles, id=self._x.id)`
shared by the four role accessors (short-circuit: the id lookup only runs
when the cache is non-None). -/
def cacheMissingRole (g : Guild) (cache : Option Role) : Bool :=
  match cache with
  | none => true
  | some r => (getRoleById g.roles r.id).isNone

/-- The guard `not self._x or not discord.utils.get(guild.text_channels, id=self._x.id)`
shared by the three channel accessors. -/
def cacheMissingChannel (g : Guild) (cache : Option TextChannel) : Bool :=
  match cache with
  | none => true
  | some c => (getChannelById g.text_channels c.id).isNone

/-- The `committee_role` property: refresh the cached role by name
`"Committee"` when the cache is empty or stale, then return the cache.
Returns the value together with the updated bot state. -/
def TeXBot.committee_role (bot : TeXBot) (sgid : Nat) :
    Except GuildDoesNotExist (Option Role × TeXBot) :=
  match bot.css_guild sgid with
  | Except.error e => Except.error e
  | Except.ok g =>
    let newCache :=
      if cacheMissingRole g bot.committee_role_cache then
        getRoleByName g.roles "Committee"
      else bot.committee_role_cache
    Except.ok (newCache, { bot with committee_role_cache := newCache })

/-- The `guest_role` property: as `committee_role`, with name `"Guest"`. -/
def TeXBot.guest_role (bot : TeXBot) (sgid : Nat) :
    Except GuildDoesNotExist (Option Role × TeXBot) :=
  match bot.css_guild sgid with
  | Except.error e => Except.error e
  | Except.ok g =>
    let newCache :=
      if cacheMissingRole g bot.guest_role_cache then
        getRoleByName g.roles "Guest"
      else bot.guest_role_cache
    Except.ok (newCache, { bot with guest_role_cache := newCache })

/-- The `member_role` property: as `committee_role`, with name `"Member"`. -/
def TeXBot.member_role (bot : TeXBot) (sgid : Nat) :
    Except GuildDoesNotExist (Option Role × TeXBot) :=
  match bot.css_guild sgid with
  | Except.error e => Except.error e
  | Except.ok g =>
    let newCache :=
      if cacheMissingRole g bot.member_role_cache then
        getRoleByName g.roles "Member"
      else bot.member_role_cache
    Except.ok (newCache, { bot with member_role_cache := newCache })

/-- The `archivist_role` property: as `committee_role`, with name
`"Archivist"`. -/
def TeXBot.archivist_role (bot : TeXBot) (sgid : Nat) :
    Except GuildDoesNotExist (Option Role × TeXBot) :=
  match bot.css_guild sgid with
  | Except.error e => Except.error e
  | Except.ok g =>
    let newCache :=
      if cacheMissingRole g bot.archivist_role_cache then
        getRoleByName g.roles "Archivist"
      else bot.archivist_role_cache
    Except.ok (newCache, { bot with archivist_role_cache := newCache })

/-- The `roles_channel` property: refresh the cached channel by name
`"roles"` when the cache is empty or stale, then return the cache. -/
def TeXBot.roles_channel (bot : TeXBot) (sgid : Nat) :
    Except GuildDoesNotExist (Option TextChannel × TeXBot) :=
  match bot.css_guild sgid with
  | Except.error e => Except.error e
  | Except.ok g =>
    let newCache :=
      if cacheMissingChannel g bot.roles_channel_cache then
        getChannelByName g.text_channels "roles"
      else bot.roles_channel_cache
    Except.ok (newCache, { bot with roles_channel_cache := newCache })

/-- The `general_channel` property: as `roles_channel`, with name
`"general"`. -/
def TeXBot.general_channel (bot : TeXBot) (sgid : Nat) :
    Except GuildDoesNotExist (Option TextChannel × TeXBot) :=
  match bot.css_guild sgid with
  | Except.error e => Except.error e
  | Except.ok g =>
    let newCache :=
      if cacheMissingChannel g bot.general_channel_cache then
        getChannelByName g.text_channels "general"
      else bot.general_channel_cache
    Except.ok (newCache, { bot with general_channel_cache := newCache })

/-- The `welcome_channel` property: when the cache is empty or stale,
store `self.css_guild.rules_channel or discord.utils.get(..., name="welcome")`
(Python `or`: the rules channel when non-None, else the name lookup). -/
def TeXBot.welcome_channel (bot : TeXBot) (sgid : Nat) :
    Except GuildDoesNotExist (Option TextChannel × TeXBot) :=
  match bot.css_guild sgid with
  | Except.error e => Except.error e
  | Except.ok g =>
    let newCache :=
      if cacheMissingChannel g bot.welcome_channel_cache then
        match g.rules_channel with
        | some c => some c
        | none => getChannelByName g.text_channels "welcome"
      else bot.welcome_channel_cache
    Except.ok (newCache, { bot with welcome_channel_cache := newCache })

/-- One cached guild-object reference (a guild, a role, or a channel). -/
inductive CachedRef where
  | guild : Guild → CachedRef
  | role : Role → CachedRef
  | channel : TextChannel → CachedRef
deriving DecidableEq, Repr

/-- The list of cache slots held by a bot state, in the order
`TeXBot.__init__` creates them. -/
def TeXBot.cacheSlots (b : TeXBot) : List (Option CachedRef) :=
  [b.css_guild_cache.map CachedRef.guild,
   b.committee_role_cache.map CachedRef.role,
   b.guest_role_cache.map CachedRef.role,
   b.member_role_cache.map CachedRef.role,
   b.archivist_role_cache.map CachedRef.role,
   b.roles_channel_cache.map CachedRef.channel,
   b.general_channel_cache.map CachedRef.channel,
   b.welcome_channel_cache.map CachedRef.channel]

/-- The exceptions the embedded code distinguishes (`GuildDoesNotExist`
and `StrikeTrackingError` from `exceptions.py`, `TypeError` raised by the
wrapper itself, anything else opaque). -/
inductive PyExc where
  | guildDoesNotExistExc (guild_id : Nat)
  | strikeTrackingExc (msg : String)
  | typeErrorExc (msg : String)
  | otherExc (name : String)
deriving DecidableEq, Repr

/-- The awaited side effects performed by `capture_error`'s wrapper:
calling `close_func` on the caught exception, then `await self.bot.close()`. -/
inductive BotEffect where
  | closeFuncCalled (e : PyExc)
  | botClosed
deriving DecidableEq, Repr

/-- `except error_type` catches instances of `error_type` (subclasses
included), modelled as a Boolean predicate on exceptions. -/
def isGuildDoesNotExistExc : PyExc → Bool
  | PyExc.guildDoesNotExistExc _ => true
  | _ => false

/-- The wrapper produced by `capture_error(func, error_type, close_func)`
(`cogs/_utils.py` lines 166-181).  `selfIsTeXBotCog` models the
`isinstance(self, TeXBotCog)` check; `funcResult` is the outcome of
`await func(self, *args, **kwargs)`; `error_type` is the catch predicate.
Returns the wrapper's outcome (`T | None` on success) and the list of
side effects performed, in order. -/
def capture_error_wrapper {T : Type} (selfIsTeXBotCog : Bool)
    (funcResult : Except PyExc T) (error_type : PyExc → Bool) :
    Except PyExc (Option T) × List BotEffect :=
  if !selfIsTeXBotCog then
    (Except.error (PyExc.typeErrorExc
      "Parameter of any capture_error decorator must be an instance of TeXBotCog/one of its subclasses."), [])
  else
    match funcResult with
    | Except.ok v => (Except.ok (some v), [])
    | Except.error e =>
      if error_type e then
        (Except.ok none, [BotEffect.closeFuncCalled e, BotEffect.botClosed])
      else (Except.error e, [])

/-- `capture_guild_does_not_exist_error = functools.partial(capture_error,
error_type=GuildDoesNotExist, close_func=...)`. -/
def capture_guild_does_not_exist_error {T : Type} (selfIsTeXBotCog : Bool)
    (funcResult : Except PyExc T) : Except PyExc (Option T) × List BotEffect :=
  capture_error_wrapper selfIsTeXBotCog funcResult isGuildDoesNotExistExc

/-- The parts of `ctx.command` that `send_error` inspects: whether the
command object has a `callback` attribute, that callback's `__name__`,
and the command's `qualified_name`. -/
structure CommandInfo where
  has_callback : Bool
  callback_name : String
  qualified_name : String
deriving DecidableEq, Repr

/-- `ctx.command.callback.__name__ if (hasattr(ctx.command, "callback")
and not ctx.command.callback.__name__.startswith("_"))
else ctx.command.qualified_name`. -/
def command_display_name (c : CommandInfo) : String :=
  if c.has_callback && !(c.callback_name.startsWith "_") then c.callback_name
  else c.qualified_name

/-- `TeXBotCog.ERROR_ACTIVITIES`. -/
def ERROR_ACTIVITIES : List (String × String) :=
  [("ping", "reply to ping"),
   ("write_roles", "send messages"),
   ("edit_message", "edit the message"),
   ("induct", "induct user"),
   ("silent_induct", "silently induct user"),
   ("non_silent_induct", "induct user and send welcome message"),
   ("make_member", "make you a member"),
   ("remind_me", "remind you"),
   ("channel_stats", "display channel statistics"),
   ("server_stats", "display whole server statistics"),
   ("user_stats", "display your statistics"),
   ("left_member_stats",
    "display statistics about the members that have left the server"),
   ("archive", "archive the selected category"),
   ("ensure_members_inducted", "ensure all members are inducted")]

/-- pycord's `Role.mention`. -/
def Role.mention (r : Role) : String := "<@&" ++ toString r.id ++ ">"

/-- The backtick character (the replacement in `send_error` wraps each
matched mention token in backticks). -/
def btick : Char := Char.ofNat 96

/-- Python `str.strip()` whitespace (ASCII part). -/
def isPySpace (c : Char) : Bool :=
  c == ' ' || c == '\t' || c == '\n' || c == '\r' ||
  c == Char.ofNat 11 || c == Char.ofNat 12

/-- Python `str.strip()` on a character list. -/
def stripChars (cs : List Char) : List Char :=
  ((cs.dropWhile isPySpace).reverse.dropWhile isPySpace).reverse

/-- Split a character list into its maximal leading digit run and the
rest (the greedy `\d+` of the mention regex). -/
def spanDigits : List Char → List Char × List Char
  | [] => ([], [])
  | c :: cs =>
    if c.isDigit then
      let p := spanDigits cs
      (c :: p.1, p.2)
    else ([], c :: cs)

/-- Parse `\d+>` at the front of the input: on success return the
consumed characters (digits then `>`) and the remainder.  Backtracking
inside `\d+` cannot help: the character after a shorter digit run is a
digit, never `>`, so the greedy run is the only candidate. -/
def parseDigitsGt (cs : List Char) : Option (List Char × List Char) :=
  match spanDigits cs with
  | (_, []) => none
  | (ds, c :: r) =>
    if c == '>' && !ds.isEmpty then some (ds ++ ['>'], r) else none

/-- Match the regex `<([@&#]?|(@[&#])?)\d+>` at the front of the input,
with Python's leftmost alternation semantics: first try a single optional
class character, then the two-character `@&`/`@#` prefixes.  On success
return the matched token and the remainder. -/
def tryMention : List Char → Option (List Char × List Char)
  | '<' :: rest =>
    match rest with
    | c :: rest2 =>
      if c == '@' || c == '&' || c == '#' then
        match parseDigitsGt rest2 with
        | some (ds, r) => some ('<' :: c :: ds, r)
        | none =>
          if c == '@' then
            match rest2 with
            | c2 :: rest3 =>
              if c2 == '&' || c2 == '#' then
                match parseDigitsGt rest3 with
                | some (ds, r) => some ('<' :: '@' :: c2 :: ds, r)
                | none => none
              else none
            | [] => none
          else none
      else
        match parseDigitsGt rest with
        | some (ds, r) => some ('<' :: ds, r)
        | none => none
    | [] => none
  | _ => none

/-- Fuelled left-to-right scan of `re.sub(pattern, repl, s)`: at each
position, replace the leftmost non-overlapping match `m` by a
backtick-wrapped copy, else keep the character and move on.  The fuel
only needs to cover the input length (each step consumes at least one
character); on exhaustion the rest is returned unchanged. -/
def subMentionsGo : Nat → List Char → List Char
  | 0, cs => cs
  | Nat.succ n, cs =>
    match tryMention cs with
    | some (tok, rest) => btick :: (tok ++ btick :: subMentionsGo n rest)
    | none =>
      match cs with
      | [] => []
      | c :: cs' => c :: subMentionsGo n cs'

/-- `re.sub(r"<([@&#]?|(@[&#])?)\d+>", lambda m: backtick-wrapped, s)`. -/
def subMentions (cs : List Char) : List Char := subMentionsGo cs.length cs

/-- `TeXBotCog.send_error` (`cogs/_utils.py` lines 62-115), restricted to
the response it sends: returns the characters of the message passed to
`ctx.respond` together with the `ephemeral` flag.  Inputs: the current
value of the `committee_role` accessor, the command info from `ctx`, and
the `error_code` / `message` arguments (logging is not modelled). -/
def send_error (committee_role : Option Role) (cmd : CommandInfo)
    (error_code : Option String) (message : Option String) : List Char × Bool :=
  let construct0 : List Char := ":warning:There was an error".data
  let construct1 : List Char :=
    match error_code with
    | none => construct0
    | some ec =>
      if ec == "" then construct0
      else
        let committee_mention : String :=
          match committee_role with
          | some r => r.mention
          | none => "committee"
        ("**Contact a " ++ committee_mention ++
          " member, referencing error code: " ++ ec ++ "**\n").data ++ construct0
  let command_name : String := command_display_name cmd
  let construct2 : List Char :=
    match ERROR_ACTIVITIES.lookup command_name with
    | some activity => construct1 ++ (" when trying to " ++ activity).data
    | none => construct1
  let msgTruthy : Bool :=
    match message with
    | none => false
    | some m => !(m == "")
  let construct3 : List Char :=
    construct2 ++ (if msgTruthy then ":".data else ".".data)
  let construct4 : List Char := construct3 ++ ":warning:".data
  let construct5 : List Char :=
    match message with
    | none => construct4
    | some m =>
      if m == "" then construct4
      else construct4 ++ ('\n' :: btick :: subMentions (stripChars m.data)) ++ [btick]
  (construct5, true)

/-- Python `a % b` on real operands (floored modulo, `b` nonzero). -/
def pyMod (a b : ℚ) : ℚ := a - b * (⌊a / b⌋ : ℤ)

/-- Round a rational to the nearest integer, ties to even (the rounding
Python's float formatting applies to the decimal digit string). -/
def roundHalfEven (q : ℚ) : ℤ :=
  let f := ⌊q⌋
  let r := q - (f : ℚ)
  if r < 1 / 2 then f
  else if 1 / 2 < r then f + 1
  else if f % 2 = 0 then f else f + 1

/-- Smallest `k` (starting from the given one) with `1 ≤ a * 10 ^ k`,
searched under fuel. -/
def smallExpAux : Nat → ℚ → Nat → Nat
  | 0, _, k => k
  | Nat.succ fuel, a, k =>
    if 1 ≤ a * (10 : ℚ) ^ k then k else smallExpAux fuel a (k + 1)

/-- The decimal exponent of a positive rational: the `e` with
`10 ^ e ≤ a < 10 ^ (e + 1)`. -/
def decExp (a : ℚ) : ℤ :=
  if 1 ≤ a then (Nat.log 10 (⌊a⌋).toNat : ℤ)
  else -(smallExpAux (Nat.log 10 a.den + 2) a 1 : ℤ)

/-- Strip trailing `0` characters. -/
def dropTrailingZeros (cs : List Char) : List Char :=
  (cs.reverse.dropWhile (fun c => c == '0')).reverse

/-- A decimal exponent padded to at least two digits, as CPython prints
it after `e+` / `e-`. -/
def pad2 (n : Nat) : String :=
  if n < 10 then "0" ++ toString n else toString n

/-- CPython's `format(v, ".3")` (empty presentation type, precision 3),
on the value modelled as an exact rational: round to three significant
decimal digits (ties to even), then use exponent notation when the
scientific exponent `e` satisfies `e < -4` or `e ≥ 2`, else fixed-point
notation with trailing fractional zeros stripped but at least one digit
kept after the point. -/
def pyFormat3Sig (q : ℚ) : String :=
  if q = 0 then "0.0"
  else
    let sign : String := if q < 0 then "-" else ""
    let a : ℚ := |q|
    let e0 : ℤ := decExp a
    let n3 : ℤ := roundHalfEven (a * (10 : ℚ) ^ (2 - e0))
    let p : ℤ × ℤ := if n3 = 1000 then (100, e0 + 1) else (n3, e0)
    let digits : List Char := (toString p.1.toNat).data
    let e : ℤ := p.2
    let dstrip : List Char := dropTrailingZeros digits
    if e < -4 || 2 ≤ e then
      let mant : List Char :=
        match dstrip with
        | [] => []
        | [d0] => [d0]
        | d0 :: drest => d0 :: '.' :: drest
      let esign : String := if e < 0 then "-" else "+"
      sign ++ String.mk mant ++ "e" ++ esign ++ pad2 e.natAbs
    else if 0 ≤ e then
      let ip := digits.take (e.toNat + 1)
      let fp := dropTrailingZeros (digits.drop (e.toNat + 1))
      sign ++ String.mk ip ++ (if fp.isEmpty then ".0" else "." ++ String.mk fp)
    else
      sign ++ "0." ++ String.mk (List.replicate (e.natAbs - 1) '0') ++ String.mk dstrip

/-- Python `str()` of a float that is a whole number: the integer part
followed by `.0` (the exponent notation CPython switches to at
magnitudes of 1e16 and above is not modelled). -/
def pyFloatStr (q : ℚ) : String := toString q.num ++ ".0"

/-- `amount_of_time_formatter` (`utils.py` lines 113-129), with the float
argument modelled as an exact rational. -/
def amount_of_time_formatter (value : ℚ) (time_scale : String) : String :=
  if value = 1 then time_scale
  else if pyMod value 1 = 0 then pyFloatStr value ++ " " ++ time_scale ++ "s"
  else pyFormat3Sig value ++ " " ++ time_scale ++ "s"

/-- The two settings read by `get_oauth_url` (the `setup.py` settings
mapping is outside `src/`; an unset application id is `none`, and Python
truthiness also treats the empty string as unset). -/
structure Settings where
  discord_bot_application_id : Option String
  discord_guild_id : Nat
deriving DecidableEq, Repr

/-- The `discord.Permissions` keyword flags passed by `get_oauth_url`. -/
structure Permissions where
  manage_roles : Bool
  read_messages : Bool
  send_messages : Bool
  manage_messages : Bool
  embed_links : Bool
  read_message_history : Bool
  mention_everyone : Bool
  add_reactions : Bool
  use_slash_commands : Bool
  kick_members : Bool
  manage_channels : Bool
deriving DecidableEq, Repr

/-- How many permission flags are set. -/
def permissionsCount (p : Permissions) : Nat :=
  [p.manage_roles, p.read_messages, p.send_messages, p.manage_messages,
   p.embed_links, p.read_message_history, p.mention_everyone,
   p.add_reactions, p.use_slash_commands, p.kick_members,
   p.manage_channels].count true

/-- The permission set `get_oauth_url` passes to `discord.utils.oauth_url`. -/
def texBotPermissions : Permissions :=
  { manage_roles := true
    read_messages := true
    send_messages := true
    manage_messages := true
    embed_links := true
    read_message_history := true
    mention_everyone := true
    add_reactions := true
    use_slash_commands := true
    kick_members := true
    manage_channels := true }

/-- The `ImproperlyConfigured` exception (from `exceptions.py`). -/
structure ImproperlyConfigured where
  msg : String
deriving DecidableEq, Repr

/-- The arguments `get_oauth_url` hands to `discord.utils.oauth_url`
(the library call that renders them into the URL; Python set iteration
order makes the scope order in the final string non-deterministic, so the
URL is modelled by its constituents). -/
structure OAuthURLRequest where
  client_id : String
  permissions : Permissions
  guild_id : Nat
  scopes : List String
  disable_guild_select : Bool
deriving DecidableEq, Repr

/-- `get_oauth_url` (`utils.py` lines 17-39): raise `ImproperlyConfigured`
when `settings["DISCORD_BOT_APPLICATION_ID"]` is falsy, else build the
OAuth request from the application id, the fixed permission set, the
configured guild id and the two scopes. -/
def get_oauth_url (s : Settings) : Except ImproperlyConfigured OAuthURLRequest :=
  match s.discord_bot_application_id with
  | none =>
    Except.error { msg := "DISCORD_BOT_APPLICATION_ID must be provided in order to use the get_oauth_url() utility function" }
  | some appId =>
    if appId == "" then
      Except.error { msg := "DISCORD_BOT_APPLICATION_ID must be provided in order to use the get_oauth_url() utility function" }
    else
      Except.ok
        { client_id := appId
          permissions := texBotPermissions
          guild_id := s.discord_guild_id
          scopes := ["bot", "applications.commands"]
          disable_guild_select := true }

/-- A concrete guild used to instantiate theorems with hypotheses. -/
def witnessGuild : Guild :=
  { id := 10
    roles := [{ id := 1, name := "Committee" }, { id := 2, name := "Guest" },
              { id := 3, name := "Member" }, { id := 4, name := "Archivist" }]
    text_channels := [{ id := 5, name := "roles" }, { id := 6, name := "general" },
                      { id := 7, name := "welcome" }]
    rules_channel_id := some 7 }

/-- A concrete bot state whose guild cache holds `witnessGuild`. -/
def witnessBot : TeXBot :=
  { guilds := [witnessGuild]
    css_guild_cache := some witnessGuild
    committee_role_cache := none
    guest_role_cache := none
    member_role_cache := none
    archivist_role_cache := none
    roles_channel_cache := none
    general_channel_cache := none
    welcome_channel_cache := none }

/-- A guild with id 1 and no contents. -/
def emptyGuildOne : Guild :=
  { id := 1, roles := [], text_channels := [], rules_channel_id := none }

/-- A bot state that is connected to `emptyGuildOne` but has an empty
guild cache. -/
def botEmptyCache : TeXBot :=
  { guilds := [emptyGuildOne]
    css_guild_cache := none
    committee_role_cache := none
    guest_role_cache := none
    member_role_cache := none
    archivist_role_cache := none
    roles_channel_cache := none
    general_channel_cache := none
    welcome_channel_cache := none }

/-- A command whose qualified name is not an `ERROR_ACTIVITIES` key. -/
def witnessCommand : CommandInfo :=
  { has_callback := false, callback_name := "", qualified_name := "somecmd" }

/-- Spec-side phrasing of the role-accessor refresh condition: the cached
reference is `None` or its id no longer occurs among the guild's roles. -/
def roleCacheStale (g : Guild) (c : Option Role) : Prop :=
  c = none ∨ ∃ r, c = some r ∧ ∀ x ∈ g.roles, x.id ≠ r.id

/-- Spec-side phrasing of the channel-accessor refresh condition. -/
def chanCacheStale (g : Guild) (c : Option TextChannel) : Prop :=
  c = none ∨ ∃ ch, c = some ch ∧ ∀ x ∈ g.text_channels, x.id ≠ ch.id

/-- Recognise a digit run terminated by `>` (zero digits allowed). -/
def digitsCore : List Char → Bool
  | [] => false
  | c :: cs => if c == '>' then cs.isEmpty else c.isDigit && digitsCore cs

/-- Recognise a nonempty digit run terminated by `>`. -/
def digitsThenGt (cs : List Char) : Bool :=
  match cs with
  | c :: _ => c.isDigit && digitsCore cs
  | [] => false

/-- The four mention-token shapes named by the escaping property:
`<@digits>`, `<@&digits>`, `<#digits>`, `<digits>`. -/
def isClaimMention (tok : List Char) : Bool :=
  match tok with
  | '<' :: '@' :: '&' :: r => digitsThenGt r
  | '<' :: '@' :: r => digitsThenGt r
  | '<' :: '#' :: r => digitsThenGt r
  | '<' :: r => digitsThenGt r
  | _ => false

theorem cacheMissingRole_iff (g : Guild) (c : Option Role) :
    cacheMissingRole g c = true ↔ roleCacheStale g c := by
  cases c with
  | none => simp [cacheMissingRole, roleCacheStale]
  | some r =>
    simp [cacheMissingRole, roleCacheStale, getRoleById,
      Option.isNone_iff_eq_none, List.find?_eq_none]

theorem cacheMissingChannel_iff (g : Guild) (c : Option TextChannel) :
    cacheMissingChannel g c = true ↔ chanCacheStale g c := by
  cases c with
  | none => simp [cacheMissingChannel, chanCacheStale]
  | some ch =>
    simp [cacheMissingChannel, chanCacheStale, getChannelById,
      Option.isNone_iff_eq_none, List.find?_eq_none]

/-- C6: `TeXBot.__init__` creates exactly eight cache slots, each
initialised to `None`; every reachable bot state has exactly those eight
slots (no operation introduces another), and eight is at most a dozen. -/
theorem init_cache_slots_spec :
    TeXBot.initState.cacheSlots = List.replicate 8 none ∧
    (∀ b : TeXBot, b.cacheSlots.length = 8) ∧ 8 ≤ 12 := by
  refine ⟨by rfl, fun b => by rfl, by norm_num⟩

/-- C1 (counterexample): a bot state that is connected to a guild bearing
the configured id but whose guild cache is empty: `css_guild` raises
`GuildDoesNotExist` instead of repopulating the cache and returning the
connected guild. -/
theorem css_guild_no_self_heal_cex :
    getGuildById botEmptyCache.guilds 1 = some emptyGuildOne ∧
    botEmptyCache.css_guild 1 = Except.error { guild_id := 1 } ∧
    botEmptyCache.css_guild 1 ≠ Except.ok emptyGuildOne := by
  refine ⟨by rfl, by rfl, ?_⟩
  intro h
  rw [show botEmptyCache.css_guild 1 = Except.error { guild_id := 1 } from rfl] at h
  exact Except.noConfusion h

/-- C1 (amended): `css_guild` returns exactly the cached guild, when the
cache is non-empty and some connected guild has the configured id; it
raises `GuildDoesNotExist` exactly when the cache is empty or no
connected guild has that id.  The accessor never repopulates the cache. -/
theorem css_guild_cache_spec (bot : TeXBot) (sgid : Nat) :
    (∀ g, bot.css_guild sgid = Except.ok g ↔
      (bot.css_guild_cache = some g ∧ (getGuildById bot.guilds sgid).isSome = true)) ∧
    (bot.css_guild sgid = Except.error { guild_id := sgid } ↔
      (bot.css_guild_cache = none ∨ getGuildById bot.guilds sgid = none)) := by
  unfold TeXBot.css_guild
  cases hc : bot.css_guild_cache <;> cases hg : getGuildById bot.guilds sgid <;> simp

/-- C2: the wrapper built by `capture_error`, invoked on a `TeXBotCog`
instance, forwards a successful result unchanged; on an exception caught
by `error_type` it calls `close_func` on the exception, awaits
`self.bot.close()` (in that order) and returns `None`; any other
exception propagates unchanged with no side effect. -/
theorem capture_error_spec (T : Type) (error_type : PyExc → Bool)
    (funcResult : Except PyExc T) :
    (∀ v, funcResult = Except.ok v →
      capture_error_wrapper true funcResult error_type = (Except.ok (some v), [])) ∧
    (∀ e, funcResult = Except.error e → error_type e = true →
      capture_error_wrapper true funcResult error_type =
        (Except.ok none, [BotEffect.closeFuncCalled e, BotEffect.botClosed])) ∧
    (∀ e, funcResult = Except.error e → error_type e = false →
      capture_error_wrapper true funcResult error_type = (Except.error e, [])) := by
  refine ⟨?_, ?_, ?_⟩
  · intro v hv; subst hv; rfl
  · intro e he ht; subst he; simp [capture_error_wrapper, ht]
  · intro e he ht; subst he; simp [capture_error_wrapper, ht]

theorem capture_error_spec_witness :
    ((Except.ok 3 : Except PyExc Nat) = Except.ok 3 ∧
      capture_error_wrapper true (Except.ok 3 : Except PyExc Nat)
        isGuildDoesNotExistExc = (Except.ok (some 3), [])) ∧
    (isGuildDoesNotExistExc (PyExc.guildDoesNotExistExc 5) = true ∧
      capture_error_wrapper true
        (Except.error (PyExc.guildDoesNotExistExc 5) : Except PyExc Nat)
        isGuildDoesNotExistExc =
        (Except.ok none,
         [BotEffect.closeFuncCalled (PyExc.guildDoesNotExistExc 5), BotEffect.botClosed])) ∧
    (isGuildDoesNotExistExc (PyExc.otherExc "ValueError") = false ∧
      capture_error_wrapper true
        (Except.error (PyExc.otherExc "ValueError") : Except PyExc Nat)
        isGuildDoesNotExistExc = (Except.error (PyExc.otherExc "ValueError"), [])) :=
  ⟨⟨rfl, (capture_error_spec Nat isGuildDoesNotExistExc (Except.ok 3)).1 3 rfl⟩,
   ⟨rfl, (capture_error_spec Nat isGuildDoesNotExistExc
      (Except.error (PyExc.guildDoesNotExistExc 5))).2.1 _ rfl rfl⟩,
   ⟨rfl, (capture_error_spec Nat isGuildDoesNotExistExc
      (Except.error (PyExc.otherExc "ValueError"))).2.2 _ rfl rfl⟩⟩

/-- C10: `get_oauth_url` raises `ImproperlyConfigured` exactly when the
application id setting is falsy (unset or empty); otherwise it builds the
OAuth request from that id, the fixed eleven-permission set, the
configured guild id, and the scopes `bot` and `applications.commands`. -/
theorem get_oauth_url_spec (s : Settings) :
    ((∃ e, get_oauth_url s = Except.error e) ↔
      (s.discord_bot_application_id = none ∨ s.discord_bot_application_id = some "")) ∧
    (∀ appId, s.discord_bot_application_id = some appId → appId ≠ "" →
      get_oauth_url s = Except.ok
        { client_id := appId
          permissions := texBotPermissions
          guild_id := s.discord_guild_id
          scopes := ["bot", "applications.commands"]
          disable_guild_select := true }) ∧
    permissionsCount texBotPermissions = 11 := by
  refine ⟨?_, ?_, by rfl⟩
  · cases hid : s.discord_bot_application_id with
    | none => simp [get_oauth_url, hid]
    | some appId =>
      by_cases ha : appId = ""
      · subst ha; simp [get_oauth_url, hid]
      · simp [get_oauth_url, hid, ha]
  · intro appId hid ha
    simp [get_oauth_url, hid, ha]

theorem get_oauth_url_spec_witness :
    ({ discord_bot_application_id := some "12345", discord_guild_id := 10 } :
        Settings).discord_bot_application_id = some "12345" ∧
    "12345" ≠ "" ∧
    get_oauth_url { discord_bot_application_id := some "12345", discord_guild_id := 10 } =
      Except.ok
        { client_id := "12345"
          permissions := texBotPermissions
          guild_id := 10
          scopes := ["bot", "applications.commands"]
          disable_guild_select := true } :=
  ⟨rfl, by decide,
   (get_oauth_url_spec
      { discord_bot_application_id := some "12345", discord_guild_id := 10 }).2.1
     "12345" rfl (by decide)⟩

theorem role_if_fresh (g : Guild) (cache : Option Role) (nm : String) (r : Role)
    (h : (if cacheMissingRole g cache then getRoleByName g.roles nm else cache) = some r) :
    ∃ y ∈ g.roles, y.id = r.id := by
  split at h
  · exact ⟨r, List.mem_of_find?_eq_some h, rfl⟩
  · rename_i hc
    rw [h] at hc
    simp only [cacheMissingRole, Option.isNone_iff_eq_none] at hc
    obtain ⟨y, hy⟩ := Option.ne_none_iff_exists'.mp hc
    refine ⟨y, List.mem_of_find?_eq_some hy, ?_⟩
    have := List.find?_some hy
    simpa using this

theorem chan_if_fresh (g : Guild) (cache : Option TextChannel) (nm : String)
    (c : TextChannel)
    (h : (if cacheMissingChannel g cache then getChannelByName g.text_channels nm
          else cache) = some c) :
    ∃ y ∈ g.text_channels, y.id = c.id := by
  split at h
  · exact ⟨c, List.mem_of_find?_eq_some h, rfl⟩
  · rename_i hc
    rw [h] at hc
    simp only [cacheMissingChannel, Option.isNone_iff_eq_none] at hc
    obtain ⟨y, hy⟩ := Option.ne_none_iff_exists'.mp hc
    refine ⟨y, List.mem_of_find?_eq_some hy, ?_⟩
    have := List.find?_some hy
    simpa using this

theorem welcome_if_fresh (g : Guild) (cache : Option TextChannel) (c : TextChannel)
    (h : (if cacheMissingChannel g cache then
            (match g.rules_channel with
             | some x => some x
             | none => getChannelByName g.text_channels "welcome")
          else cache) = some c) :
    ∃ y ∈ g.text_channels, y.id = c.id := by
  split at h
  · rcases hr : g.rules_channel with _ | x
    · rw [hr] at h
      exact ⟨c, List.mem_of_find?_eq_some h, rfl⟩
    · rw [hr] at h
      have hxc : x = c := by simpa using h
      unfold Guild.rules_channel at hr
      rcases hrid : g.rules_channel_id with _ | rid
      · rw [hrid] at hr; exact absurd hr (by simp)
      · rw [hrid] at hr
        exact ⟨x, List.mem_of_find?_eq_some hr, by rw [hxc]⟩
  · rename_i hc
    rw [h] at hc
    simp only [cacheMissingChannel, Option.isNone_iff_eq_none] at hc
    obtain ⟨y, hy⟩ := Option.ne_none_iff_exists'.mp hc
    refine ⟨y, List.mem_of_find?_eq_some hy, ?_⟩
    have := List.find?_some hy
    simpa using this

/-- C3: each of the six name-keyed accessors re-fetches the object
bearing its fixed name and stores it (possibly `None`) whenever its cache
is empty or its cached id no longer occurs in the guild, and otherwise
returns the cached object with the state unchanged. -/
theorem lazy_accessor_refresh_spec (bot : TeXBot) (sgid : Nat) (g : Guild)
    (h : bot.css_guild sgid = Except.ok g) :
    ((roleCacheStale g bot.committee_role_cache →
      bot.committee_role sgid = Except.ok (getRoleByName g.roles "Committee",
        { bot with committee_role_cache := getRoleByName g.roles "Committee" })) ∧
    (¬ roleCacheStale g bot.committee_role_cache →
      bot.committee_role sgid = Except.ok (bot.committee_role_cache, bot))) ∧
    ((roleCacheStale g bot.guest_role_cache →
      bot.guest_role sgid = Except.ok (getRoleByName g.roles "Guest",
        { bot with guest_role_cache := getRoleByName g.roles "Guest" })) ∧
    (¬ roleCacheStale g bot.guest_role_cache →
      bot.guest_role sgid = Except.ok (bot.guest_role_cache, bot))) ∧
    ((roleCacheStale g bot.member_role_cache →
      bot.member_role sgid = Except.ok (getRoleByName g.roles "Member",
        { bot with member_role_cache := getRoleByName g.roles "Member" })) ∧
    (¬ roleCacheStale g bot.member_role_cache →
      bot.member_role sgid = Except.ok (bot.member_role_cache, bot))) ∧
    ((roleCacheStale g bot.archivist_role_cache →
      bot.archivist_role sgid = Except.ok (getRoleByName g.roles "Archivist",
        { bot with archivist_role_cache := getRoleByName g.roles "Archivist" })) ∧
    (¬ roleCacheStale g bot.archivist_role_cache →
      bot.archivist_role sgid = Except.ok (bot.archivist_role_cache, bot))) ∧
    ((chanCacheStale g bot.roles_channel_cache →
      bot.roles_channel sgid = Except.ok (getChannelByName g.text_channels "roles",
        { bot with roles_channel_cache := getChannelByName g.text_channels "roles" })) ∧
    (¬ chanCacheStale g bot.roles_channel_cache →
      bot.roles_channel sgid = Except.ok (bot.roles_channel_cache, bot))) ∧
    ((chanCacheStale g bot.general_channel_cache →
      bot.general_channel sgid = Except.ok (getChannelByName g.text_channels "general",
        { bot with general_channel_cache := getChannelByName g.text_channels "general" })) ∧
    (¬ chanCacheStale g bot.general_channel_cache →
      bot.general_channel sgid = Except.ok (bot.general_channel_cache, bot))) := by
  refine ⟨⟨?_, ?_⟩, ⟨?_, ?_⟩, ⟨?_, ?_⟩, ⟨?_, ?_⟩, ⟨?_, ?_⟩, ⟨?_, ?_⟩⟩
  · intro hs
    have hb := (cacheMissingRole_iff g bot.committee_role_cache).mpr hs
    unfold TeXBot.committee_role; rw [h]; simp [hb]
  · intro hs
    have hb : cacheMissingRole g bot.committee_role_cache = false := by
      cases hcm : cacheMissingRole g bot.committee_role_cache with
      | false => rfl
      | true => exact absurd ((cacheMissingRole_iff g _).mp hcm) hs
    unfold TeXBot.committee_role; rw [h]; simp [hb]
  · intro hs
    have hb := (cacheMissingRole_iff g bot.guest_role_cache).mpr hs
    unfold TeXBot.guest_role; rw [h]; simp [hb]
  · intro hs
    have hb : cacheMissingRole g bot.guest_role_cache = false := by
      cases hcm : cacheMissingRole g bot.guest_role_cache with
      | false => rfl
      | true => exact absurd ((cacheMissingRole_iff g _).mp hcm) hs
    unfold TeXBot.guest_role; rw [h]; simp [hb]
  · intro hs
    have hb := (cacheMissingRole_iff g bot.member_role_cache).mpr hs
    unfold TeXBot.member_role; rw [h]; simp [hb]
  · intro hs
    have hb : cacheMissingRole g bot.member_role_cache = false := by
      cases hcm : cacheMissingRole g bot.member_role_cache with
      | false => rfl
      | true => exact absurd ((cacheMissingRole_iff g _).mp hcm) hs
    unfold TeXBot.member_role; rw [h]; simp [hb]
  · intro hs
    have hb := (cacheMissingRole_iff g bot.archivist_role_cache).mpr hs
    unfold TeXBot.archivist_role; rw [h]; simp [hb]
  · intro hs
    have hb : cacheMissingRole g bot.archivist_role_cache = false := by
      cases hcm : cacheMissingRole g bot.archivist_role_cache with
      | false => rfl
      | true => exact absurd ((cacheMissingRole_iff g _).mp hcm) hs
    unfold TeXBot.archivist_role; rw [h]; simp [hb]
  · intro hs
    have hb := (cacheMissingChannel_iff g bot.roles_channel_cache).mpr hs
    unfold TeXBot.roles_channel; rw [h]; simp [hb]
  · intro hs
    have hb : cacheMissingChannel g bot.roles_channel_cache = false := by
      cases hcm : cacheMissingChannel g bot.roles_channel_cache with
      | false => rfl
      | true => exact absurd ((cacheMissingChannel_iff g _).mp hcm) hs
    unfold TeXBot.roles_channel; rw [h]; simp [hb]
  · intro hs
    have hb := (cacheMissingChannel_iff g bot.general_channel_cache).mpr hs
    unfold TeXBot.general_channel; rw [h]; simp [hb]
  · intro hs
    have hb : cacheMissingChannel g bot.general_channel_cache = false := by
      cases hcm : cacheMissingChannel g bot.general_channel_cache with
      | false => rfl
      | true => exact absurd ((cacheMissingChannel_iff g _).mp hcm) hs
    unfold TeXBot.general_channel; rw [h]; simp [hb]

theorem lazy_accessor_refresh_spec_witness :
    witnessBot.css_guild 10 = Except.ok witnessGuild ∧
    roleCacheStale witnessGuild witnessBot.committee_role_cache ∧
    witnessBot.committee_role 10 =
      Except.ok (getRoleByName witnessGuild.roles "Committee",
        { witnessBot with
            committee_role_cache := getRoleByName witnessGuild.roles "Committee" }) :=
  ⟨rfl, Or.inl rfl,
   ((lazy_accessor_refresh_spec witnessBot 10 witnessGuild rfl).1).1 (Or.inl rfl)⟩

/-- C4: whenever one of the seven role/channel accessors returns a
non-`None` value, that value's id occurs among the css guild's current
roles (for role accessors) or current text channels (for channel
accessors); a reference whose id has disappeared is never returned. -/
theorem accessor_fresh_id_invariant (bot : TeXBot) (sgid : Nat) (g : Guild)
    (h : bot.css_guild sgid = Except.ok g) :
    (∀ r b2, bot.committee_role sgid = Except.ok (some r, b2) →
      ∃ y ∈ g.roles, y.id = r.id) ∧
    (∀ r b2, bot.guest_role sgid = Except.ok (some r, b2) →
      ∃ y ∈ g.roles, y.id = r.id) ∧
    (∀ r b2, bot.member_role sgid = Except.ok (some r, b2) →
      ∃ y ∈ g.roles, y.id = r.id) ∧
    (∀ r b2, bot.archivist_role sgid = Except.ok (some r, b2) →
      ∃ y ∈ g.roles, y.id = r.id) ∧
    (∀ c b2, bot.roles_channel sgid = Except.ok (some c, b2) →
      ∃ y ∈ g.text_channels, y.id = c.id) ∧
    (∀ c b2, bot.general_channel sgid = Except.ok (some c, b2) →
      ∃ y ∈ g.text_channels, y.id = c.id) ∧
    (∀ c b2, bot.welcome_channel sgid = Except.ok (some c, b2) →
      ∃ y ∈ g.text_channels, y.id = c.id) := by
  refine ⟨?_, ?_, ?_, ?_, ?_, ?_, ?_⟩
  · intro r b2 hr
    unfold TeXBot.committee_role at hr; rw [h] at hr
    simp only [Except.ok.injEq, Prod.mk.injEq] at hr
    exact role_if_fresh g _ _ r hr.1
  · intro r b2 hr
    unfold TeXBot.guest_role at hr; rw [h] at hr
    simp only [Except.ok.injEq, Prod.mk.injEq] at hr
    exact role_if_fresh g _ _ r hr.1
  · intro r b2 hr
    unfold TeXBot.member_role at hr; rw [h] at hr
    simp only [Except.ok.injEq, Prod.mk.injEq] at hr
    exact role_if_fresh g _ _ r hr.1
  · intro r b2 hr
    unfold TeXBot.archivist_role at hr; rw [h] at hr
    simp only [Except.ok.injEq, Prod.mk.injEq] at hr
    exact role_if_fresh g _ _ r hr.1
  · intro c b2 hr
    unfold TeXBot.roles_channel at hr; rw [h] at hr
    simp only [Except.ok.injEq, Prod.mk.injEq] at hr
    exact chan_if_fresh g _ _ c hr.1
  · intro c b2 hr
    unfold TeXBot.general_channel at hr; rw [h] at hr
    simp only [Except.ok.injEq, Prod.mk.injEq] at hr
    exact chan_if_fresh g _ _ c hr.1
  · intro c b2 hr
    unfold TeXBot.welcome_channel at hr; rw [h] at hr
    simp only [Except.ok.injEq, Prod.mk.injEq] at hr
    exact welcome_if_fresh g _ c hr.1

theorem accessor_fresh_id_invariant_witness :
    witnessBot.css_guild 10 = Except.ok witnessGuild ∧
    witnessBot.committee_role 10 =
      Except.ok (some { id := 1, name := "Committee" },
        { witnessBot with committee_role_cache := some { id := 1, name := "Committee" } }) ∧
    ∃ y ∈ witnessGuild.roles, y.id = ({ id := 1, name := "Committee" } : Role).id :=
  ⟨rfl, rfl,
   (accessor_fresh_id_invariant witnessBot 10 witnessGuild rfl).1
     { id := 1, name := "Committee" }
     { witnessBot with committee_role_cache := some { id := 1, name := "Committee" } }
     rfl⟩

/-- C5: when the cached welcome channel is empty or its id no longer
occurs among the css guild's text channels, `welcome_channel` caches and
returns the guild's rules channel when one resolves, otherwise the text
channel named `welcome` (possibly `None`); a still-valid cached reference
is returned with the state unchanged. -/
theorem welcome_channel_refresh_spec (bot : TeXBot) (sgid : Nat) (g : Guild)
    (h : bot.css_guild sgid = Except.ok g) :
    (chanCacheStale g bot.welcome_channel_cache →
      (∀ c, g.rules_channel = some c →
        bot.welcome_channel sgid =
          Except.ok (some c, { bot with welcome_channel_cache := some c })) ∧
      (g.rules_channel = none →
        bot.welcome_channel sgid =
          Except.ok (getChannelByName g.text_channels "welcome",
            { bot with
                welcome_channel_cache := getChannelByName g.text_channels "welcome" }))) ∧
    (¬ chanCacheStale g bot.welcome_channel_cache →
      bot.welcome_channel sgid = Except.ok (bot.welcome_channel_cache, bot)) := by
  constructor
  · intro hs
    have hb := (cacheMissingChannel_iff g bot.welcome_channel_cache).mpr hs
    constructor
    · intro c hc
      unfold TeXBot.welcome_channel; rw [h]; simp [hb, hc]
    · intro hc
      unfold TeXBot.welcome_channel; rw [h]; simp [hb, hc]
  · intro hs
    have hb : cacheMissingChannel g bot.welcome_channel_cache = false := by
      cases hcm : cacheMissingChannel g bot.welcome_channel_cache with
      | false => rfl
      | true => exact absurd ((cacheMissingChannel_iff g _).mp hcm) hs
    unfold TeXBot.welcome_channel; rw [h]; simp [hb]

theorem welcome_channel_refresh_spec_witness :
    witnessBot.css_guild 10 = Except.ok witnessGuild ∧
    chanCacheStale witnessGuild witnessBot.welcome_channel_cache ∧
    witnessGuild.rules_channel = some { id := 7, name := "welcome" } ∧
    witnessBot.welcome_channel 10 =
      Except.ok (some { id := 7, name := "welcome" },
        { witnessBot with welcome_channel_cache := some { id := 7, name := "welcome" } }) :=
  ⟨rfl, Or.inl rfl, rfl,
   ((welcome_channel_refresh_spec witnessBot 10 witnessGuild rfl).1 (Or.inl rfl)).1
     { id := 7, name := "welcome" } rfl⟩

theorem pyMod_one_eq_zero_iff (q : ℚ) : pyMod q 1 = 0 ↔ q.den = 1 := by
  unfold pyMod
  rw [div_one, one_mul, sub_eq_zero]
  constructor
  · intro hq; rw [hq]; exact Rat.den_intCast ⌊q⌋
  · intro hd
    have h2 : (q.num : ℚ) = q := (Rat.den_eq_one_iff q).mp hd
    calc q = (q.num : ℚ) := h2.symm
    _ = ((⌊(q.num : ℚ)⌋ : ℤ) : ℚ) := by rw [Int.floor_intCast]
    _ = ((⌊q⌋ : ℤ) : ℚ) := by rw [h2]

/-- C9: `amount_of_time_formatter` returns `time_scale` alone when the
value equals 1; the value's default string form, a space, and the
pluralised `time_scale` when the value is a whole number (denominator 1)
other than 1; and the value formatted to three significant figures with
the pluralised `time_scale` otherwise (`value % 1 == 0` holds exactly for
whole numbers). -/
theorem amount_of_time_formatter_spec (value : ℚ) (time_scale : String) :
    (value = 1 → amount_of_time_formatter value time_scale = time_scale) ∧
    (value ≠ 1 → value.den = 1 →
      amount_of_time_formatter value time_scale =
        pyFloatStr value ++ " " ++ time_scale ++ "s") ∧
    (value.den ≠ 1 →
      amount_of_time_formatter value time_scale =
        pyFormat3Sig value ++ " " ++ time_scale ++ "s") := by
  refine ⟨?_, ?_, ?_⟩
  · intro h1; simp [amount_of_time_formatter, h1]
  · intro h1 hd
    have hm : pyMod value 1 = 0 := (pyMod_one_eq_zero_iff value).mpr hd
    simp [amount_of_time_formatter, h1, hm]
  · intro hd
    have h1 : value ≠ 1 := by
      intro h; rw [h] at hd; exact hd rfl
    have hm : pyMod value 1 ≠ 0 := fun h => hd ((pyMod_one_eq_zero_iff value).mp h)
    simp [amount_of_time_formatter, h1, hm]

theorem amount_of_time_formatter_spec_witness :
    (mkRat 3 2).den ≠ 1 ∧
    amount_of_time_formatter (mkRat 3 2) "month" =
      pyFormat3Sig (mkRat 3 2) ++ " " ++ "month" ++ "s" :=
  ⟨by decide, (amount_of_time_formatter_spec (mkRat 3 2) "month").2.2 (by decide)⟩

theorem strData_append (s t : String) : (s ++ t).data = s.data ++ t.data := rfl

theorem header_prefix_aux (m ecs : String) (R : List Char) :
    ("**Contact a " ++ m ++ " member, referencing error code: " ++ ecs ++ "**").data <+:
    ("**Contact a " ++ m ++ " member, referencing error code: " ++ ecs ++ "**\n").data ++ R := by
  refine ⟨'\n' :: R, ?_⟩
  have h2 : ("**Contact a " ++ m ++ " member, referencing error code: " ++ ecs ++ "**\n") =
      ("**Contact a " ++ m ++ " member, referencing error code: " ++ ecs ++ "**") ++ "\n" := by
    rw [show ("**\n" : String) = "**" ++ "\n" from rfl]
    simp [String.append_assoc]
  rw [h2, strData_append]
  simp [List.append_assoc]

/-- C7 (counterexample): called with the non-None but empty error code
`""`, `send_error` sends a response that does not begin with the contact
header (Python truthiness skips the header for an empty string). -/
theorem send_error_empty_code_cex :
    (send_error none witnessCommand (some "") none).1 =
      ":warning:There was an error.:warning:".data ∧
    ¬ (("**Contact a committee member, referencing error code: **").data <+:
        (send_error none witnessCommand (some "") none).1) :=
  ⟨by rfl, by decide⟩

/-- C7 (amended): for every call to `send_error` with a truthy error code
(non-None and non-empty), the response begins with
`**Contact a <mention> member, referencing error code: <error_code>**`,
where `<mention>` is the committee role's mention when the accessor
yields a role and the literal `committee` otherwise; and every response
is sent ephemerally. -/
theorem send_error_contact_header_spec (committee_role : Option Role)
    (cmd : CommandInfo) (ec : String) (message : Option String)
    (h : ec ≠ "") :
    (("**Contact a " ++
      (match committee_role with
       | some r => r.mention
       | none => "committee") ++
      " member, referencing error code: " ++ ec ++ "**").data <+:
      (send_error committee_role cmd (some ec) message).1) ∧
    (∀ ec2 msg2, (send_error committee_role cmd ec2 msg2).2 = true) := by
  constructor
  · have hec : (ec == "") = false := by
      rw [beq_eq_false_iff_ne]; exact h
    unfold send_error
    rcases message with _ | m
    · rcases hL : ERROR_ACTIVITIES.lookup (command_display_name cmd) with _ | act
      · simp only [hec, Bool.false_eq_true, if_false, hL]
        exact ((header_prefix_aux _ ec _).trans (List.prefix_append _ _)).trans
          (List.prefix_append _ _)
      · simp only [hec, Bool.false_eq_true, if_false, hL]
        exact (((header_prefix_aux _ ec _).trans (List.prefix_append _ _)).trans
          (List.prefix_append _ _)).trans (List.prefix_append _ _)
    · by_cases hm : (m == "") = true
      · rcases hL : ERROR_ACTIVITIES.lookup (command_display_name cmd) with _ | act
        · simp [hec, hL, hm]
        · simp [hec, hL, hm]
      · have hm2 : (m == "") = false := by simpa using hm
        rcases hL : ERROR_ACTIVITIES.lookup (command_display_name cmd) with _ | act
        · simp [hec, hL, hm2]
        · simp [hec, hL, hm2]
  · intro ec2 msg2; rfl

theorem send_error_contact_header_spec_witness :
    ("E1" : String) ≠ "" ∧
    ((("**Contact a " ++
      (match (none : Option Role) with
       | some r => r.mention
       | none => "committee") ++
      " member, referencing error code: " ++ "E1" ++ "**").data <+:
      (send_error none witnessCommand (some "E1") none).1) ∧
    (∀ ec2 msg2, (send_error none witnessCommand ec2 msg2).2 = true)) :=
  ⟨by decide, send_error_contact_header_spec none witnessCommand "E1" none (by decide)⟩

theorem spanDigits_spec : ∀ cs ds r, spanDigits cs = (ds, r) →
    cs = ds ++ r ∧ ∀ c ∈ ds, c.isDigit = true := by
  intro cs
  induction cs with
  | nil =>
    intro ds r h
    simp only [spanDigits, Prod.mk.injEq] at h
    obtain ⟨h1, h2⟩ := h
    subst h1; subst h2; simp
  | cons c cs' ih =>
    intro ds r h
    rcases hsp : spanDigits cs' with ⟨ds', r'⟩
    by_cases hc : c.isDigit = true
    · rw [spanDigits, if_pos hc, hsp] at h
      simp only [Prod.mk.injEq] at h
      obtain ⟨h1, h2⟩ := h
      subst h1; subst h2
      obtain ⟨ih1, ih2⟩ := ih ds' r' hsp
      constructor
      · rw [ih1]; rfl
      · intro x hx
        rcases List.mem_cons.mp hx with hx | hx
        · rw [hx]; exact hc
        · exact ih2 x hx
    · rw [spanDigits, if_neg hc] at h
      simp only [Prod.mk.injEq] at h
      obtain ⟨h1, h2⟩ := h
      subst h1; subst h2
      simp

theorem spanDigits_eq : ∀ ds rest, (∀ c ∈ ds, c.isDigit = true) →
    (∀ c, rest.head? = some c → c.isDigit = false) →
    spanDigits (ds ++ rest) = (ds, rest) := by
  intro ds
  induction ds with
  | nil =>
    intro rest _ hr
    cases rest with
    | nil => rfl
    | cons c r' =>
      have hc := hr c rfl
      simp [spanDigits, hc]
  | cons d ds' ih =>
    intro rest hds hr
    have hd : d.isDigit = true := hds d (List.mem_cons_self d ds')
    have ih2 := ih rest (fun c hc => hds c (List.mem_cons_of_mem d hc)) hr
    rw [List.cons_append, spanDigits, if_pos hd]
    simp [ih2]

theorem parseDigitsGt_some : ∀ cs tk r, parseDigitsGt cs = some (tk, r) →
    ∃ ds, tk = ds ++ ['>'] ∧ ds ≠ [] ∧ (∀ c ∈ ds, c.isDigit = true) ∧
      cs = ds ++ '>' :: r := by
  intro cs tk r h
  unfold parseDigitsGt at h
  rcases hsp : spanDigits cs with ⟨ds, rest⟩
  rw [hsp] at h
  rcases rest with _ | ⟨c, rest'⟩
  · exact absurd h (by simp)
  · by_cases hgt : c = '>'
    · subst hgt
      by_cases hds : ds.isEmpty
      · simp [hds] at h
      · simp only [hds, Bool.and_false, Bool.and_true, beq_self_eq_true,
          Bool.not_false, if_true, Bool.true_and, Bool.not_eq_true',
          Option.some.injEq, Prod.mk.injEq] at h
        obtain ⟨h1, h2⟩ := h
        obtain ⟨hcs, hdig2⟩ := spanDigits_spec cs ds ('>' :: rest') hsp
        refine ⟨ds, ?_, by simpa using hds, hdig2, ?_⟩
        · rw [← h1]
        · rw [hcs, h2]
    · simp [hgt] at h

theorem parseDigitsGt_append : ∀ ds b, ds ≠ [] → (∀ c ∈ ds, c.isDigit = true) →
    parseDigitsGt (ds ++ '>' :: b) = some (ds ++ ['>'], b) := by
  intro ds b hne hdig
  have hsp := spanDigits_eq ds ('>' :: b) hdig
    (fun c hc => by simp at hc; subst hc; decide)
  unfold parseDigitsGt
  rw [hsp]
  simp [hne]

theorem digit_ne_lt_char (c : Char) (h : c.isDigit = true) : c ≠ '<' := by
  intro he; subst he; exact absurd h (by decide)

theorem digit_not_special (c : Char) (h : c.isDigit = true) :
    (c == '@' || c == '&' || c == '#') = false := by
  simp only [Bool.or_eq_false_iff]
  refine ⟨⟨?_, ?_⟩, ?_⟩
  · rw [beq_eq_false_iff_ne]
    intro he; subst he; exact absurd h (by decide)
  · rw [beq_eq_false_iff_ne]
    intro he; subst he; exact absurd h (by decide)
  · rw [beq_eq_false_iff_ne]
    intro he; subst he; exact absurd h (by decide)

theorem token_no_lt (c : Char) (hc : c ≠ '<') (ds0 : List Char)
    (hdig : ∀ x ∈ ds0, x.isDigit = true) :
    ∀ x ∈ c :: (ds0 ++ ['>']), x ≠ '<' := by
  intro x hx
  rcases List.mem_cons.mp hx with hx | hx
  · rw [hx]; exact hc
  · rcases List.mem_append.mp hx with hx | hx
    · exact digit_ne_lt_char x (hdig x hx)
    · simp at hx; rw [hx]; decide

theorem digits_gt_no_lt (ds0 : List Char)
    (hdig : ∀ x ∈ ds0, x.isDigit = true) :
    ∀ x ∈ ds0 ++ ['>'], x ≠ '<' := by
  intro x hx
  rcases List.mem_append.mp hx with hx | hx
  · exact digit_ne_lt_char x (hdig x hx)
  · simp at hx; rw [hx]; decide

theorem special_ne_lt (c : Char) (hsp : (c == '@' || c == '&' || c == '#') = true) :
    c ≠ '<' := by
  rcases (by simpa using hsp : (c = '@' ∨ c = '&') ∨ c = '#') with (h | h) | h <;>
    (subst h; decide)

theorem tryMention_shape : ∀ cs tok rest, tryMention cs = some (tok, rest) →
    ∃ mt, tok = '<' :: mt ∧ cs = tok ++ rest ∧ ∀ c ∈ mt, c ≠ '<' := by
  intro cs tok rest h
  unfold tryMention at h
  rcases cs with _ | ⟨c0, rest0⟩
  · exact absurd h (by simp)
  by_cases hc0 : c0 = '<'
  swap
  · simp [hc0] at h
  subst hc0
  rcases rest0 with _ | ⟨c, rest2⟩
  · exact absurd h (by simp)
  by_cases hsp : (c == '@' || c == '&' || c == '#') = true
  · simp only [hsp, if_true] at h
    rcases hpd : parseDigitsGt rest2 with _ | ⟨ds, r⟩
    · rw [hpd] at h
      by_cases hat : (c == '@') = true
      · simp only [hat, if_true] at h
        rcases rest2 with _ | ⟨c2, rest3⟩
        · exact absurd h (by simp)
        by_cases hc2 : (c2 == '&' || c2 == '#') = true
        · simp only [hc2, if_true] at h
          rcases hpd2 : parseDigitsGt rest3 with _ | ⟨ds, r⟩
          · rw [hpd2] at h; exact absurd h (by simp)
          rw [hpd2] at h
          simp only [Option.some.injEq, Prod.mk.injEq] at h
          obtain ⟨h1, h2⟩ := h
          obtain ⟨ds0, hds, hne, hdig, hsplit⟩ := parseDigitsGt_some rest3 ds r hpd2
          have hca : c = '@' := by simpa using hat
          refine ⟨'@' :: c2 :: ds, ?_, ?_, ?_⟩
          · rw [← h1]
          · rw [← h1, ← h2, hsplit, hds, hca]
            simp
          · intro x hx
            rcases List.mem_cons.mp hx with hx | hx
            · rw [hx]; decide
            · rw [hds] at hx
              refine token_no_lt c2 ?_ ds0 hdig x hx
              rcases (by simpa using hc2 : c2 = '&' ∨ c2 = '#') with h | h <;>
                (subst h; decide)
        · simp [hc2] at h
      · simp [hat] at h
    · rw [hpd] at h
      simp only [Option.some.injEq, Prod.mk.injEq] at h
      obtain ⟨h1, h2⟩ := h
      obtain ⟨ds0, hds, hne, hdig, hsplit⟩ := parseDigitsGt_some rest2 ds r hpd
      refine ⟨c :: ds, ?_, ?_, ?_⟩
      · rw [← h1]
      · rw [← h1, ← h2, hsplit, hds]
        simp
      · rw [hds]
        exact token_no_lt c (special_ne_lt c hsp) ds0 hdig
  · simp only [hsp, Bool.false_eq_true, if_false] at h
    rcases hpd : parseDigitsGt (c :: rest2) with _ | ⟨ds, r⟩
    · rw [hpd] at h; exact absurd h (by simp)
    rw [hpd] at h
    simp only [Option.some.injEq, Prod.mk.injEq] at h
    obtain ⟨h1, h2⟩ := h
    obtain ⟨ds0, hds, hne, hdig, hsplit⟩ := parseDigitsGt_some (c :: rest2) ds r hpd
    refine ⟨ds, ?_, ?_, ?_⟩
    · rw [← h1]
    · rw [← h1, ← h2, hsplit, hds]
      simp
    · rw [hds]
      exact digits_gt_no_lt ds0 hdig

theorem digitsCore_spec : ∀ cs, digitsCore cs = true →
    ∃ ds, (∀ c ∈ ds, c.isDigit = true) ∧ cs = ds ++ ['>'] := by
  intro cs
  induction cs with
  | nil => intro h; exact absurd h (by simp [digitsCore])
  | cons c cs' ih =>
    intro h
    rw [digitsCore] at h
    by_cases hc : (c == '>') = true
    · rw [if_pos hc] at h
      have hnil : cs' = [] := by simpa using h
      subst hnil
      exact ⟨[], by simp, by simp [show c = '>' from by simpa using hc]⟩
    · rw [if_neg hc] at h
      rw [Bool.and_eq_true] at h
      obtain ⟨hcd, hrest⟩ := h
      obtain ⟨ds', hds', heq⟩ := ih hrest
      refine ⟨c :: ds', ?_, by simp [heq]⟩
      intro x hx
      rcases List.mem_cons.mp hx with hx | hx
      · rw [hx]; exact hcd
      · exact hds' x hx

theorem digitsThenGt_spec : ∀ cs, digitsThenGt cs = true →
    ∃ ds, ds ≠ [] ∧ (∀ c ∈ ds, c.isDigit = true) ∧ cs = ds ++ ['>'] := by
  intro cs h
  rcases cs with _ | ⟨c, cs'⟩
  · exact absurd h (by simp [digitsThenGt])
  · rw [digitsThenGt, Bool.and_eq_true] at h
    obtain ⟨hcd, hcore⟩ := h
    obtain ⟨ds, hds, heq⟩ := digitsCore_spec (c :: cs') hcore
    rcases ds with _ | ⟨d, ds'⟩
    · simp only [List.nil_append] at heq
      have : c = '>' := by
        have := List.head_eq_of_cons_eq heq
        exact this
      rw [this] at hcd
      exact absurd hcd (by decide)
    · exact ⟨d :: ds', by simp, hds, heq⟩

theorem isClaimMention_spec : ∀ tok, isClaimMention tok = true →
    ∃ p ds, (p = [] ∨ p = ['@'] ∨ p = ['@', '&'] ∨ p = ['#']) ∧ ds ≠ [] ∧
      (∀ c ∈ ds, c.isDigit = true) ∧ tok = '<' :: (p ++ (ds ++ ['>'])) := by
  intro tok h
  unfold isClaimMention at h
  rcases tok with _ | ⟨c0, t0⟩
  · exact absurd h (by simp)
  by_cases hc0 : c0 = '<'
  swap
  · simp [hc0] at h
  subst hc0
  rcases t0 with _ | ⟨c1, t1⟩
  · exact absurd h (by simp [digitsThenGt])
  by_cases h1 : c1 = '@'
  · subst h1
    rcases t1 with _ | ⟨c2, t2⟩
    · exact absurd h (by simp [digitsThenGt])
    by_cases h2 : c2 = '&'
    · subst h2
      obtain ⟨ds, hne, hdig, heq⟩ := digitsThenGt_spec t2 (by simpa using h)
      exact ⟨['@', '&'], ds, by simp, hne, hdig, by simp [heq]⟩
    · have h' : digitsThenGt (c2 :: t2) = true := by
        simpa [h2] using h
      obtain ⟨ds, hne, hdig, heq⟩ := digitsThenGt_spec (c2 :: t2) h'
      exact ⟨['@'], ds, by simp, hne, hdig, by simp [heq]⟩
  · by_cases h1b : c1 = '#'
    · subst h1b
      obtain ⟨ds, hne, hdig, heq⟩ := digitsThenGt_spec t1 (by simpa [h1] using h)
      exact ⟨['#'], ds, by simp, hne, hdig, by simp [heq]⟩
    · have h' : digitsThenGt (c1 :: t1) = true := by
        simpa [h1, h1b] using h
      obtain ⟨ds, hne, hdig, heq⟩ := digitsThenGt_spec (c1 :: t1) h'
      exact ⟨[], ds, by simp, hne, hdig, by simp [heq]⟩

theorem parseDigitsGt_amp : ∀ l, parseDigitsGt ('&' :: l) = none := by
  intro l
  unfold parseDigitsGt
  rw [show spanDigits ('&' :: l) = ([], '&' :: l) from by simp [spanDigits]]
  simp

theorem tryMention_claim : ∀ p ds b, (p = [] ∨ p = ['@'] ∨ p = ['@', '&'] ∨ p = ['#']) →
    ds ≠ [] → (∀ c ∈ ds, c.isDigit = true) →
    tryMention (('<' :: (p ++ (ds ++ ['>']))) ++ b) =
      some ('<' :: (p ++ (ds ++ ['>'])), b) := by
  intro p ds b hp hne hdig
  have hpd := parseDigitsGt_append ds b hne hdig
  rcases hp with hp | hp | hp | hp <;> subst hp
  · rcases ds with _ | ⟨d, ds'⟩
    · exact absurd rfl hne
    have hd : d.isDigit = true := hdig d (List.mem_cons_self d ds')
    have hns := digit_not_special d hd
    rw [show (('<' :: ([] ++ ((d :: ds') ++ ['>']))) ++ b : List Char) =
      '<' :: (d :: (ds' ++ '>' :: b)) from by simp]
    unfold tryMention
    rw [show ((d :: ds') ++ '>' :: b : List Char) = d :: (ds' ++ '>' :: b) from by simp] at hpd
    simp only [hns, Bool.false_eq_true, if_false, hpd]
    simp
  · rw [show (('<' :: (['@'] ++ (ds ++ ['>']))) ++ b : List Char) =
      '<' :: ('@' :: (ds ++ '>' :: b)) from by simp]
    unfold tryMention
    simp only [hpd]
    simp
  · rw [show (('<' :: (['@', '&'] ++ (ds ++ ['>']))) ++ b : List Char) =
      '<' :: ('@' :: ('&' :: (ds ++ '>' :: b))) from by simp]
    unfold tryMention
    simp only [parseDigitsGt_amp, hpd]
    simp
  · rw [show (('<' :: (['#'] ++ (ds ++ ['>']))) ++ b : List Char) =
      '<' :: ('#' :: (ds ++ '>' :: b)) from by simp]
    unfold tryMention
    simp only [hpd]
    simp

theorem advance_aux : ∀ (mt a2 rest tokb : List Char), (∀ c ∈ mt, c ≠ '<') →
    tokb.head? = some '<' → mt ++ rest = a2 ++ tokb →
    ∃ a3, a2 = mt ++ a3 ∧ rest = a3 ++ tokb := by
  intro mt
  induction mt with
  | nil =>
    intro a2 rest tokb _ _ heq
    exact ⟨a2, rfl, by simpa using heq⟩
  | cons c mt' ih =>
    intro a2 rest tokb hmt hhead heq
    rcases a2 with _ | ⟨y, a2'⟩
    · simp only [List.nil_append] at heq
      have : tokb.head? = some c := by rw [← heq]; rfl
      rw [hhead] at this
      have hc : c = '<' := by simpa using this.symm
      exact absurd hc (hmt c (List.mem_cons_self c mt'))
    · simp only [List.cons_append, List.cons.injEq] at heq
      obtain ⟨hy, heq'⟩ := heq
      obtain ⟨a3, ha, hr⟩ := ih a2' rest tokb
        (fun x hx => hmt x (List.mem_cons_of_mem c hx)) hhead heq'
      exact ⟨a3, by rw [hy, ha, List.cons_append], hr⟩

theorem subMentionsGo_wraps (tok b : List Char) (p ds : List Char)
    (hp : p = [] ∨ p = ['@'] ∨ p = ['@', '&'] ∨ p = ['#']) (hne : ds ≠ [])
    (hdig : ∀ c ∈ ds, c.isDigit = true) (htoksh : tok = '<' :: (p ++ (ds ++ ['>']))) :
    ∀ n a, (a ++ tok ++ b).length ≤ n →
    (btick :: (tok ++ [btick])) <:+: subMentionsGo n (a ++ tok ++ b) := by
  intro n
  induction n with
  | zero =>
    intro a hlen
    exfalso
    rw [htoksh] at hlen
    simp at hlen
  | succ n ih =>
    intro a hlen
    rcases a with _ | ⟨x, a'⟩
    · rw [List.nil_append]
      have htm : tryMention (tok ++ b) = some (tok, b) := by
        rw [htoksh]; exact tryMention_claim p ds b hp hne hdig
      rw [show subMentionsGo (n + 1) (tok ++ b) =
        btick :: (tok ++ btick :: subMentionsGo n b) from by
          simp [subMentionsGo, htm]]
      exact ⟨[], subMentionsGo n b, by simp⟩
    · rcases htry : tryMention (x :: a' ++ tok ++ b) with _ | ⟨m, rest⟩
      · have htry' : tryMention (x :: (a' ++ (tok ++ b))) = none := by
          rw [show (x :: (a' ++ (tok ++ b)) : List Char) = x :: a' ++ tok ++ b from by simp]
          exact htry
        rw [show subMentionsGo (n + 1) (x :: a' ++ tok ++ b) =
          x :: subMentionsGo n (a' ++ tok ++ b) from by
            simp [subMentionsGo, htry']]
        obtain ⟨s, t, hst⟩ := ih a' (by simp at hlen ⊢; omega)
        exact ⟨x :: s, t, by rw [← hst]; simp⟩
      · obtain ⟨mt, hm, hcs, hmt⟩ := tryMention_shape _ _ _ htry
        rw [hm] at hcs
        have hcs' : x :: (a' ++ (tok ++ b)) = '<' :: (mt ++ rest) := by
          rw [← List.cons_append]
          rw [show (x :: a' ++ (tok ++ b) : List Char) = x :: a' ++ tok ++ b from by simp]
          rw [hcs]
          simp
        simp only [List.cons.injEq] at hcs'
        obtain ⟨hx, heq⟩ := hcs'
        have hhead : (tok ++ b).head? = some '<' := by rw [htoksh]; rfl
        obtain ⟨a3, ha2, hrest⟩ := advance_aux mt a' rest (tok ++ b) hmt hhead heq.symm
        have htry' : tryMention (x :: (a' ++ (tok ++ b))) = some (m, rest) := by
          rw [show (x :: (a' ++ (tok ++ b)) : List Char) = x :: a' ++ tok ++ b from by simp]
          exact htry
        rw [show subMentionsGo (n + 1) (x :: a' ++ tok ++ b) =
          btick :: (('<' :: mt) ++ btick :: subMentionsGo n rest) from by
            simp [subMentionsGo, htry', hm]]
        have hlen2 : (a3 ++ tok ++ b).length ≤ n := by
          have h1 : (x :: a' ++ tok ++ b).length ≤ n + 1 := hlen
          rw [ha2] at h1
          simp at h1 ⊢
          omega
        obtain ⟨s, t, hst⟩ := ih a3 hlen2
        refine ⟨btick :: ('<' :: mt) ++ btick :: s, t, ?_⟩
        rw [hrest]
        rw [show (a3 ++ (tok ++ b) : List Char) = a3 ++ tok ++ b from by simp]
        rw [← hst]
        simp

theorem isInfix_append_left (L : List Char) {X T : List Char} (h : X <:+: T) :
    X <:+: L ++ T := by
  obtain ⟨s, t, hst⟩ := h
  exact ⟨L ++ s, t, by rw [← hst]; simp⟩

theorem isInfix_cons_ext (c : Char) {X T : List Char} (h : X <:+: T) :
    X <:+: c :: T := by
  obtain ⟨s, t, hst⟩ := h
  exact ⟨c :: s, t, by rw [← hst]; simp⟩

theorem isInfix_append_right_ext (R : List Char) {X T : List Char} (h : X <:+: T) :
    X <:+: T ++ R := by
  obtain ⟨s, t, hst⟩ := h
  exact ⟨s, t ++ R, by rw [← hst]; simp⟩

/-- C8: every mention token of the shape `<@digits>`, `<@&digits>`,
`<#digits>`, or `<digits>` occurring in the stripped message appears in
the response sent by `send_error` wrapped in backticks, so embedded
user-supplied text cannot trigger a live mention. -/
theorem send_error_mention_escaped (committee_role : Option Role) (cmd : CommandInfo)
    (error_code : Option String) (m : String) (a tok b : List Char)
    (htok : isClaimMention tok = true)
    (hsplit : stripChars m.data = a ++ tok ++ b) :
    (btick :: (tok ++ [btick])) <:+:
      (send_error committee_role cmd error_code (some m)).1 := by
  obtain ⟨p, ds, hp, hne, hdig, htoksh⟩ := isClaimMention_spec tok htok
  have hmne : m ≠ "" := by
    intro h0; subst h0
    rw [show stripChars ("" : String).data = [] from rfl] at hsplit
    have h1 := (List.append_eq_nil.mp hsplit.symm).1
    have h2 := (List.append_eq_nil.mp h1).2
    rw [htoksh] at h2
    exact List.noConfusion h2
  have hmbeq : (m == "") = false := by rw [beq_eq_false_iff_ne]; exact hmne
  have hinner : (btick :: (tok ++ [btick])) <:+: subMentions (stripChars m.data) := by
    rw [hsplit]
    unfold subMentions
    exact subMentionsGo_wraps tok b p ds hp hne hdig htoksh
      (a ++ tok ++ b).length a (le_refl _)
  have hR : (btick :: (tok ++ [btick])) <:+:
      subMentions (stripChars m.data) ++ [btick] :=
    isInfix_append_right_ext [btick] hinner
  unfold send_error
  simp only [hmbeq, Bool.false_eq_true, if_false, List.append_assoc, List.cons_append]
  repeat
    first
      | exact hR
      | exact hinner
      | apply isInfix_append_left
      | apply isInfix_cons_ext

theorem send_error_mention_escaped_witness :
    isClaimMention ("<@123>".data) = true ∧
    stripChars ("hi <@123> there".data) =
      ("hi ".data) ++ ("<@123>".data) ++ (" there".data) ∧
    ((btick :: (("<@123>".data) ++ [btick])) <:+:
      (send_error none witnessCommand none (some "hi <@123> there")).1) :=
  ⟨by decide, by decide,
   send_error_mention_escaped none witnessCommand none "hi <@123> there"
     ("hi ".data) ("<@123>".data) (" there".data) (by decide) (by decide)⟩
